import Mathlib

/-
Verification of the panel-construction pipeline of the qm2023 capstone
repository (fetch scripts, `merge_final_panel.py`,
`merge_final_panel_enhanced.py`, `add_supplementary_variables.py`).

Shallow embedding conventions:
* a date is a month index (a natural number); consecutive calendar months
  are consecutive numbers and the calendar month of a date is `date % 12`;
* numeric observations are rationals; a nullable cell is an `Option ℚ`
  (pandas `NaN` is `none`);
* a DataFrame is a `List` of row structures, in row order;
* `pandas.merge` is a list product over the join key (many-to-many);
  `how='left'` keeps an unmatched left row with a null payload;
* `sort_values` is an insertion sort by the quoted keys;
* `groupby('state')` enumerates groups in ascending state order
  (pandas sorts group keys by default) and keeps the original relative
  order of rows inside a group.
-/

/-- One row of a national series file: columns `date`, value. -/
structure Obs where
  date : ℕ
  value : ℚ
  deriving DecidableEq, Repr

/-- One row of a state-scoped series file: columns `date`, `state`, value.
States are numbered; pandas' alphabetical order on state abbreviations is
the numeric order here. -/
structure SObs where
  date : ℕ
  state : ℕ
  value : ℚ
  deriving DecidableEq, Repr

/-- One row of the intermediate national merge
(`federal_funds_df.merge(national_unemployment_df, on='date')`). -/
structure NRow where
  date : ℕ
  federal_funds_rate : ℚ
  national_unemployment_rate : ℚ
  deriving DecidableEq, Repr

/-- One row of the assembled base panel (`analysis_panel.csv`):
columns `date`, `state`, `unemployment_rate`,
`national_unemployment_rate`, `federal_funds_rate`. -/
structure Row where
  date : ℕ
  state : ℕ
  unemployment_rate : ℚ
  national_unemployment_rate : ℚ
  federal_funds_rate : ℚ
  deriving DecidableEq, Repr

/-- The (date, state) key of a panel row. -/
def Row.key (r : Row) : ℕ × ℕ := (r.date, r.state)

/-- Minimum of the dates of a series, `none` on an empty series
(pandas `.min()` of an empty column is `NaT`). -/
def minDate? : List ℕ → Option ℕ
  | [] => none
  | d :: ds =>
    match minDate? ds with
    | none => some d
    | some m => some (min d m)

/-- Maximum of the dates of a series, `none` on an empty series. -/
def maxDate? : List ℕ → Option ℕ
  | [] => none
  | d :: ds =>
    match maxDate? ds with
    | none => some d
    | some m => some (max d m)

/-- `sort_values('date')` for a national series. -/
def sortObsByDate (l : List Obs) : List Obs :=
  List.insertionSort (fun a b => a.date ≤ b.date) l

/-- `sort_values('date')` for a state-scoped series. -/
def sortSObsByDate (l : List SObs) : List SObs :=
  List.insertionSort (fun a b => a.date ≤ b.date) l

/-- `sort_values(['date', 'state'])` for the assembled panel. -/
def sortPanel (l : List Row) : List Row :=
  List.insertionSort
    (fun a b => a.date < b.date ∨ (a.date = b.date ∧ a.state ≤ b.state)) l

/-- `federal_funds_df.merge(national_unemployment_df, on='date', how='inner')`:
every pair of rows agreeing on `date` produces a merged row, in left-key
order (merge_final_panel.py lines 89-93). -/
def innerJoinNational (fed natl : List Obs) : List NRow :=
  fed.flatMap fun f =>
    (natl.filter fun n => n.date = f.date).map fun n =>
      ⟨f.date, f.value, n.value⟩

/-- `state_unemployment_df.merge(national_data, on='date', how='inner')`
(merge_final_panel.py lines 97-101). -/
def innerJoinStateNational (su : List SObs) (nd : List NRow) : List Row :=
  su.flatMap fun s =>
    (nd.filter fun n => n.date = s.date).map fun n =>
      ⟨s.date, s.state, s.value, n.national_unemployment_rate,
        n.federal_funds_rate⟩

/-- `common_start = max` of the three series' minimum dates
(merge_final_panel.py lines 75-79); `none` when a series is empty. -/
def commonStart? (su : List SObs) (fed natl : List Obs) : Option ℕ :=
  match minDate? (su.map SObs.date), minDate? (fed.map Obs.date),
      minDate? (natl.map Obs.date) with
  | some a, some b, some c => some (max a (max b c))
  | _, _, _ => none

/-- `common_end = min` of the three series' maximum dates
(merge_final_panel.py lines 80-84); `none` when a series is empty. -/
def commonEnd? (su : List SObs) (fed natl : List Obs) : Option ℕ :=
  match maxDate? (su.map SObs.date), maxDate? (fed.map Obs.date),
      maxDate? (natl.map Obs.date) with
  | some a, some b, some c => some (min a (min b c))
  | _, _, _ => none

/-- Date-range filter of merge_final_panel.py lines 104-107:
`panel[(panel['date'] >= common_start) & (panel['date'] <= common_end)]`.
A comparison against `NaT` (absent bound) is false, dropping every row. -/
def filterCommonRange (cs ce : Option ℕ) (panel : List Row) : List Row :=
  match cs, ce with
  | some a, some b => panel.filter fun r => a ≤ r.date ∧ r.date ≤ b
  | _, _ => []

/-- `create_state_panel` of merge_final_panel.py (lines 54-125): sort the
three inputs by date, compute the common date range, inner-join the two
national series on `date`, inner-join the state series against the result
on `date`, filter to the common range, and sort by (`date`, `state`). -/
def create_state_panel (su : List SObs) (fed natl : List Obs) : List Row :=
  let fed' := sortObsByDate fed
  let natl' := sortObsByDate natl
  let su' := sortSObsByDate su
  let nationalData := innerJoinNational fed' natl'
  let panel0 := innerJoinStateNational su' nationalData
  let panel1 := filterCommonRange (commonStart? su fed natl)
    (commonEnd? su fed natl) panel0
  sortPanel panel1

/-- Outcome of `generate_data_quality_report` (merge_final_panel.py lines
128-203): on an empty panel the first raising call is
`panel['unemployment_rate'].idxmin()` (line 158), a `ValueError`
("attempt to get argmin of an empty sequence"); on a nonempty panel the
report is written. Everything before line 158 tolerates an empty frame
(`describe`, `isna().sum()` and the numpy divisions produce `NaN`s, not
exceptions). -/
def generate_data_quality_report (panel : List Row) : Except String Unit :=
  if panel.isEmpty then
    .error "attempt to get argmin of an empty sequence"
  else
    .ok ()

/-- Files written by `main` of merge_final_panel.py together with the
process exit code: the panel is saved to `panel_processed.csv` (line 227)
and `analysis_panel.csv` (line 234) before `generate_data_quality_report`
runs (line 238); an exception there is caught at top level and turns into
exit code 1, after both panel files are already on disk. -/
def merge_main_run (su : List SObs) (fed natl : List Obs) :
    List String × ℕ :=
  let panel := create_state_panel su fed natl
  match generate_data_quality_report panel with
  | .error _ => (["panel_processed.csv", "analysis_panel.csv"], 1)
  | .ok _ =>
    (["panel_processed.csv", "analysis_panel.csv",
      "M1_data_quality_report.md"], 0)

/-
Derived-Variable Engine (`calculate_derived_variables` of
add_supplementary_variables.py, lines 211-243). The engine assigns five
new columns to the panel; each column is modelled as a `List (Option ℚ)`
aligned with the panel's row positions. The panel that the script loads
(`analysis_panel.csv`) is the output of `create_state_panel`, sorted by
(`date`, `state`).
-/

/-- Cell of a `shift(k)` column (`k ≥ 1`) whose history — the rows the
shift may reach back into — is `hist`: the value of the row `k` from the
end of the history, `none` when the history is shorter than `k`. -/
def lagCell (k : ℕ) (f : Row → ℚ) (hist : List Row) : Option ℚ :=
  if k ≤ hist.length then (hist[hist.length - k]?).map f else none

/-- Accumulator form of pandas `groupby('state')[col].shift(k)` for
`k ≥ 1`: the entry for a row is the value of the row `k` positions
earlier inside the same state's subsequence (in panel row order), `none`
when fewer than `k` same-state rows precede. `pre` is the list of rows
already passed. -/
def groupedShiftAux (k : ℕ) (f : Row → ℚ) :
    List Row → List Row → List (Option ℚ)
  | _, [] => []
  | pre, r :: rest =>
    lagCell k f (pre.filter fun x => x.state = r.state) ::
      groupedShiftAux k f (pre ++ [r]) rest

/-- Pandas `panel.groupby('state')[col].shift(k)` (`k ≥ 1`), aligned with
the panel's row positions. -/
def groupedShift (k : ℕ) (f : Row → ℚ) (panel : List Row) :
    List (Option ℚ) :=
  groupedShiftAux k f [] panel

/-- Accumulator form of the ungrouped pandas `Series.shift(k)` for
`k ≥ 1`: the value `k` rows earlier in plain panel order, across state
boundaries. -/
def ungroupedShiftAux (k : ℕ) (f : Row → ℚ) :
    List Row → List Row → List (Option ℚ)
  | _, [] => []
  | pre, r :: rest =>
    lagCell k f pre :: ungroupedShiftAux k f (pre ++ [r]) rest

/-- Pandas `panel[col].shift(k)` (`k ≥ 1`), ungrouped. -/
def ungroupedShift (k : ℕ) (f : Row → ℚ) (panel : List Row) :
    List (Option ℚ) :=
  ungroupedShiftAux k f [] panel

/-- Subtraction of two nullable cells: `NaN` propagates
(pandas `a - b` is `NaN` when either operand is). -/
def osub (a b : Option ℚ) : Option ℚ :=
  match a, b with
  | some x, some y => some (x - y)
  | _, _ => none

/-- `panel['unemployment_yoy_change'] =
panel.groupby('state')['unemployment_rate'].shift(1) -
panel.groupby('state')['unemployment_rate'].shift(13)`
(add_supplementary_variables.py lines 216-219). -/
def unemployment_yoy_change (panel : List Row) : List (Option ℚ) :=
  List.zipWith osub
    (groupedShift 1 Row.unemployment_rate panel)
    (groupedShift 13 Row.unemployment_rate panel)

/-- `panel['fed_rate_change'] = panel['federal_funds_rate'].diff()`
(add_supplementary_variables.py line 223): the ungrouped first
difference, current row minus previous panel row. -/
def fed_rate_change (panel : List Row) : List (Option ℚ) :=
  List.zipWith osub
    (panel.map fun r => some r.federal_funds_rate)
    (ungroupedShift 1 Row.federal_funds_rate panel)

/-- `panel['unemployment_lagged_1mo'] =
panel.groupby('state')['unemployment_rate'].shift(1)`
(add_supplementary_variables.py line 227). -/
def unemployment_lagged_1mo (panel : List Row) : List (Option ℚ) :=
  groupedShift 1 Row.unemployment_rate panel

/-- `panel['fed_rate_lagged_1mo'] = panel['federal_funds_rate'].shift(1)`
(add_supplementary_variables.py line 231): an ungrouped panel-wide
shift. -/
def fed_rate_lagged_1mo (panel : List Row) : List (Option ℚ) :=
  ungroupedShift 1 Row.federal_funds_rate panel

/-- Distinct states of the panel in ascending order: the group keys of
`panel.groupby('state')` (pandas sorts group keys). -/
def statesSorted (panel : List Row) : List ℕ :=
  List.insertionSort (fun a b => a ≤ b) ((panel.map Row.state).dedup)

/-- Sample variance of a window, `none` when the window holds fewer than
two observations. Pandas `rolling(...).std()` is the square root of this
value and is `NaN` exactly when this is `none` (sample convention,
`ddof=1`: a single observation yields `NaN` even with `min_periods=1`).
The variance is modelled rather than the standard deviation to stay in
`ℚ`; the square root is strictly monotone on nonnegatives, so nullness
and equality statements transfer verbatim. -/
def sampleVar (w : List ℚ) : Option ℚ :=
  if w.length < 2 then none
  else
    let m := w.sum / (w.length : ℚ)
    some ((w.map fun x => (x - m) ^ 2).sum / ((w.length : ℚ) - 1))

/-- Rolling window-12 sample variance of a sequence with
`min_periods=1`: position `j` covers the trailing window of up to 12
elements ending at `j`. -/
def rollingVar12 (xs : List ℚ) : List (Option ℚ) :=
  (List.range xs.length).map fun j =>
    sampleVar ((xs.take (j + 1)).drop (j + 1 - 12))

/-- `panel.groupby('state')['unemployment_rate'].rolling(window=12,
min_periods=1).std()` as the pandas MultiIndex series: groups in
ascending state order, each entry carrying its original panel index in
the second index level. -/
def groupedRollingVar (panel : List Row) : List (ℕ × Option ℚ) :=
  (statesSorted panel).flatMap fun s =>
    let g := panel.enum.filter fun p => p.2.state = s
    (g.map Prod.fst).zip (rollingVar12 (g.map fun p => p.2.unemployment_rate))

/-- `.reset_index(drop=True)`: the original indices are discarded and the
values are re-indexed 0, 1, 2, …, so the later column assignment
`panel['unemployment_volatility_12mo'] = series` aligns the values with
the panel purely by position. -/
def resetIndexDrop (l : List (ℕ × Option ℚ)) : List (Option ℚ) :=
  l.map Prod.snd

/-- `panel['unemployment_volatility_12mo']` as computed by
add_supplementary_variables.py lines 235-240: grouped rolling standard
deviation (variance modelled, see `sampleVar`), `reset_index(drop=True)`,
assigned positionally. -/
def unemployment_volatility_12mo (panel : List Row) : List (Option ℚ) :=
  resetIndexDrop (groupedRollingVar panel)

/-- A panel row widened by the five derived columns. -/
structure DRow where
  row : Row
  unemployment_yoy_change : Option ℚ
  fed_rate_change : Option ℚ
  unemployment_lagged_1mo : Option ℚ
  fed_rate_lagged_1mo : Option ℚ
  unemployment_volatility_12mo : Option ℚ
  deriving DecidableEq, Repr

/-- Positional zip of the panel with its five derived columns (pandas
column assignment is by position after `reset_index(drop=True)`; the
other four series share the panel's index). -/
def zipDerived : List Row → List (Option ℚ) → List (Option ℚ) →
    List (Option ℚ) → List (Option ℚ) → List (Option ℚ) → List DRow
  | r :: rs, a :: al, b :: bl, c :: cl, d :: dl, e :: el =>
    ⟨r, a, b, c, d, e⟩ :: zipDerived rs al bl cl dl el
  | _, _, _, _, _, _ => []

/-- `calculate_derived_variables` (add_supplementary_variables.py lines
211-243): the panel with the five derived columns attached; no row is
added or removed. -/
def calculate_derived_variables (panel : List Row) : List DRow :=
  zipDerived panel
    (unemployment_yoy_change panel)
    (fed_rate_change panel)
    (unemployment_lagged_1mo panel)
    (fed_rate_lagged_1mo panel)
    (unemployment_volatility_12mo panel)

/-
Enhanced merge (`merge_final_panel_enhanced.py`). Optional supplementary
series may be absent (`Option` on the whole table); an absent table is
simply not merged, so its column never appears — modelled as the column
staying `none` everywhere.
-/

/-- One row of the enhanced panel: the core columns plus the six optional
supplementary columns (three national, three state-scoped). -/
structure ERow where
  date : ℕ
  state : ℕ
  unemployment_rate : ℚ
  national_unemployment_rate : ℚ
  federal_funds_rate : ℚ
  inflation_cpi : Option ℚ
  recession_indicator : Option ℚ
  treasury_10y_yield : Option ℚ
  employment_level : Option ℚ
  labor_force_level : Option ℚ
  private_employment : Option ℚ
  deriving DecidableEq, Repr

/-- The (date, state) key of an enhanced panel row. -/
def ERow.key (r : ERow) : ℕ × ℕ := (r.date, r.state)

/-- A core panel row widened with all-absent supplementary columns. -/
def baseERow (r : Row) : ERow :=
  ⟨r.date, r.state, r.unemployment_rate, r.national_unemployment_rate,
    r.federal_funds_rate, none, none, none, none, none, none⟩

/-- `sort_values(['date', 'state'])` for a state-scoped series. -/
def sortSObsByDateState (l : List SObs) : List SObs :=
  List.insertionSort
    (fun a b => a.date < b.date ∨ (a.date = b.date ∧ a.state ≤ b.state)) l

/-- `sort_values(['date', 'state'])` for the enhanced panel. -/
def sortPanelE (l : List ERow) : List ERow :=
  List.insertionSort
    (fun a b => a.date < b.date ∨ (a.date = b.date ∧ a.state ≤ b.state)) l

/-- Date-range filter of merge_final_panel_enhanced.py lines 159-162,
identical to the base script's. -/
def filterCommonRangeE (cs ce : Option ℕ) (panel : List ERow) :
    List ERow :=
  match cs, ce with
  | some a, some b => panel.filter fun r => a ≤ r.date ∧ r.date ≤ b
  | _, _ => []

/-- `panel.merge(df_nat, on='date', how='left')` for a national
supplementary table: each panel row is paired with every matching table
row (duplicating the panel row on duplicate dates); an unmatched row is
kept once with a null cell. `set` writes the joined cell into the row. -/
def leftJoinNational (set : ERow → Option ℚ → ERow) (t : List Obs)
    (panel : List ERow) : List ERow :=
  panel.flatMap fun r =>
    match t.filter fun o => o.date = r.date with
    | [] => [set r none]
    | ms => ms.map fun m => set r (some m.value)

/-- `panel.merge(df_state, on=['date', 'state'], how='left')` for a
state-scoped supplementary table. -/
def leftJoinState (set : ERow → Option ℚ → ERow) (t : List SObs)
    (panel : List ERow) : List ERow :=
  panel.flatMap fun r =>
    match t.filter fun o => o.date = r.date ∧ o.state = r.state with
    | [] => [set r none]
    | ms => ms.map fun m => set r (some m.value)

/-- Merge-if-present wrapper for an optional national table
(merge_final_panel_enhanced.py lines 144-150: `if state_name in data`).
The table is sorted by date first, as in line 148. -/
def optJoinNational (set : ERow → Option ℚ → ERow) (t? : Option (List Obs))
    (panel : List ERow) : List ERow :=
  match t? with
  | none => panel
  | some t => leftJoinNational set (sortObsByDate t) panel

/-- Merge-if-present wrapper for an optional state-scoped table
(merge_final_panel_enhanced.py lines 153-156, sorted by
['date', 'state'] in line 155). -/
def optJoinState (set : ERow → Option ℚ → ERow) (t? : Option (List SObs))
    (panel : List ERow) : List ERow :=
  match t? with
  | none => panel
  | some t => leftJoinState set (sortSObsByDateState t) panel

/-- `create_state_panel` of merge_final_panel_enhanced.py (lines
106-167): the core inner joins of the base script, then the optional
national left joins (inflation, recession, treasury), then the optional
state-scoped left joins (employment level, labor force level, private
employment), then the common-range filter, then the (`date`, `state`)
sort. -/
def create_state_panel_enhanced (su : List SObs) (fed natl : List Obs)
    (inflation recession treasury : Option (List Obs))
    (emp labor priv : Option (List SObs)) : List ERow :=
  let fed' := sortObsByDate fed
  let natl' := sortObsByDate natl
  let su' := sortSObsByDate su
  let panel0 := (innerJoinStateNational su'
    (innerJoinNational fed' natl')).map baseERow
  let p1 := optJoinNational (fun r v => { r with inflation_cpi := v })
    inflation panel0
  let p2 := optJoinNational (fun r v => { r with recession_indicator := v })
    recession p1
  let p3 := optJoinNational (fun r v => { r with treasury_10y_yield := v })
    treasury p2
  let p4 := optJoinState (fun r v => { r with employment_level := v })
    emp p3
  let p5 := optJoinState (fun r v => { r with labor_force_level := v })
    labor p4
  let p6 := optJoinState (fun r v => { r with private_employment := v })
    priv p5
  sortPanelE (filterCommonRangeE (commonStart? su fed natl)
    (commonEnd? su fed natl) p6)

/-
Frequency Harmonizer (`harmonize_frequencies` of
merge_final_panel_enhanced.py, lines 89-103) and its loader context
(`load_raw_data`, lines 40-86).
-/

/-- Keys that `load_raw_data` of merge_final_panel_enhanced.py can place
in the data dictionary: the three core series (lines 45-49) and the six
optional series (lines 52-59). No key `real_income` is ever loaded. -/
def loadRawDataKeys : List String :=
  ["federal_funds", "national_unemployment", "state_unemployment",
   "inflation", "recession", "treasury_10y",
   "employment_level", "labor_force_level", "private_employment"]

/-- `df['date'].dt.month.nunique()`: number of distinct calendar months
among the observation dates (a date is a month index, so its calendar
month is `date % 12`). -/
def monthNunique (df : List Obs) : ℕ :=
  ((df.map fun o => o.date % 12).dedup).length

/-- `df.set_index('date').asfreq('MS').interpolate(method='forward_fill')`
(merge_final_panel_enhanced.py line 99): pandas validates the
`interpolate` method name and `'forward_fill'` is not a valid method, so
this call raises a `ValueError` regardless of the data. -/
def interpolateForwardFill (_df : List Obs) : Except String (List Obs) :=
  .error "Can not interpolate with method=forward_fill."

/-- Replace the table stored under a key. -/
def updateTable (data : List (String × List Obs)) (k : String)
    (df : List Obs) : List (String × List Obs) :=
  data.map fun p => if p.1 = k then (k, df) else p

/-- `harmonize_frequencies` (merge_final_panel_enhanced.py lines 89-103):
only the series stored under the key `real_income` is examined
(`if 'real_income' in data`); when it is present and all its dates fall
in one calendar month, the re-index-and-interpolate call runs (and
raises, see `interpolateForwardFill`); in every other case the data is
returned unchanged. -/
def harmonize_frequencies (data : List (String × List Obs)) :
    Except String (List (String × List Obs)) :=
  match data.lookup "real_income" with
  | some df =>
    if monthNunique df = 1 then
      match interpolateForwardFill df with
      | .error e => .error e
      | .ok df' => .ok (updateTable data "real_income" df')
    else .ok data
  | none => .ok data

/-
Fetch entry points (`fetch_data.py`, `fetch_bls_data.py`): credential
handling and process exit codes. The process environment is a partial map
from variable names to strings.
-/

/-- `get_fred_api_key` (fetch_data.py lines 179-199): `os.getenv` followed
by `if not api_key` — both an unset variable and an empty string raise a
`ValueError` carrying the remediation message. -/
def get_fred_api_key (env : String → Option String) :
    Except String String :=
  match env "FRED_API_KEY" with
  | some k =>
    if k = "" then
      .error "FRED API key not found. Please: 1. Get a free API key … 2. Set environment variable: export FRED_API_KEY=YOUR_KEY 3. Or pass as argument: python fetch_data.py --api-key YOUR_KEY"
    else .ok k
  | none =>
    .error "FRED API key not found. Please: 1. Get a free API key … 2. Set environment variable: export FRED_API_KEY=YOUR_KEY 3. Or pass as argument: python fetch_data.py --api-key YOUR_KEY"

/-- Exit code of `python fetch_data.py` as a function of the environment,
the optional `--api-key` argument and the exit code `rest` of the
remainder of `main` (the network part, out of scope): lines 498-502 run
`api_key = args.api_key or get_fred_api_key()` and on `ValueError` print
the message and call `sys.exit(1)`; the module guard is
`sys.exit(main())`. Python's `or` treats an empty-string argument as
falsy. -/
def fetch_data_process_exit (env : String → Option String)
    (apiKeyArg : Option String) (rest : ℕ) : ℕ :=
  match apiKeyArg with
  | some a =>
    if a = "" then
      match get_fred_api_key env with
      | .ok _ => rest
      | .error _ => 1
    else rest
  | none =>
    match get_fred_api_key env with
    | .ok _ => rest
    | .error _ => 1

/-- Return value of `main()` of fetch_bls_data.py (lines 59-91) together
with the messages it prints when the credential is missing: with
`BLS_API_KEY` unset (or empty — `if not api_key`), it prints the
remediation lines and returns `1`; otherwise it runs the fetch loop and
falls off the end, returning Python's `None`. -/
def fetch_bls_main (env : String → Option String) :
    Option ℕ × List String :=
  let missing :=
    (some 1,
     ["ERROR: BLS_API_KEY environment variable not set!",
      "Please set it with: export BLS_API_KEY=your_key_here",
      "Or add it to your .env file"])
  match env "BLS_API_KEY" with
  | some k => if k = "" then missing else (none, [])
  | none => missing

/-- Exit code of `python fetch_bls_data.py`: the module guard (lines
93-94) is `main()`, not `sys.exit(main())`, so the return value of
`main` is discarded and the interpreter exits 0 on every path that does
not raise — including the missing-credential path that returns 1. -/
def fetch_bls_process_exit (env : String → Option String) : ℕ :=
  let _ := fetch_bls_main env
  0

/-
Definitions modelled from the spec's words, used only to compare the
code's behaviour against the claims (refinement side).
-/

/-- Modelled from the spec: `Lag(k)` — "value of a column from k periods
earlier within the same state's chronologically sorted rows. Policy:
first k rows of each state are null." For the row at panel position `i`,
`t` is its position within its own state's subsequence and the lag is
that subsequence's entry at `t - k`, null when `t < k`. -/
def specLagWithinState (k : ℕ) (panel : List Row) (i : ℕ) : Option ℚ :=
  match panel[i]? with
  | none => none
  | some r =>
    let g := panel.filter fun x => x.state = r.state
    let t := ((panel.take i).filter fun x => x.state = r.state).length
    if k ≤ t then (g[t - k]?).map Row.unemployment_rate else none

/-- Last observation at or before month `m` (forward-fill source). -/
def ffillValue (df : List Obs) (m : ℕ) : Option ℚ :=
  ((df.filter fun o => o.date ≤ m).foldl
    (fun acc o =>
      match acc with
      | none => some o
      | some a => if a.date ≤ o.date then some o else some a)
    none).map Obs.value

/-- Modelled from the spec: "re-indexes to a monthly grid spanning the
series' date range and fills intervening months using
last-observation-forward interpolation". -/
def specReindexMonthlyFfill (df : List Obs) : List Obs :=
  match minDate? (df.map Obs.date), maxDate? (df.map Obs.date) with
  | some lo, some hi =>
    (List.range' lo (hi + 1 - lo)).filterMap fun m =>
      (ffillValue df m).map fun v => ⟨m, v⟩
  | _, _ => []

/-- The value list that `unemployment_volatility_12mo` actually holds:
the per-state rolling variance sequences concatenated in ascending state
order (the state-major ordering of the panel), with original row indices
discarded. -/
def stateMajorVolatility (panel : List Row) : List (Option ℚ) :=
  (statesSorted panel).flatMap fun s =>
    rollingVar12 ((panel.filter fun r => r.state = s).map
      Row.unemployment_rate)

/-- Modelled from the spec/claim for the federal funds rate change:
"the federal funds rate of that row's calendar month minus the federal
funds rate of the immediately preceding calendar month in the panel
(null where no preceding month exists)". -/
def specFedRateMonthChange (panel : List Row) : List (Option ℚ) :=
  panel.map fun r =>
    if r.date = 0 then none
    else
      match panel.find? fun x => x.date = r.date - 1 with
      | some p => some (r.federal_funds_rate - p.federal_funds_rate)
      | none => none

/-
Concrete inputs used by counterexamples and witnesses. The example panel
is the smallest interesting one: two states 0 < 1 (think AL and WY) over
two consecutive months, sorted by (`date`, `state`) exactly as
`create_state_panel` emits it; the federal funds rate moves from 1 to 2
between the months and is identical across the states of a month. -/

/-- Two states × two months, sorted by (`date`, `state`); state 0 has
unemployment 0 then 2, state 1 has 5 then 5; the federal funds rate is
1 in month 0 and 2 in month 1. -/
def examplePanel : List Row :=
  [⟨0, 0, 0, 9, 1⟩, ⟨0, 1, 5, 9, 1⟩, ⟨1, 0, 2, 9, 2⟩, ⟨1, 1, 5, 9, 2⟩]

/-- One state over 15 consecutive months with unemployment rate equal to
the month index. -/
def examplePanelLong : List Row :=
  (List.range 15).map fun i => ⟨i, 0, (i : ℚ), 9, 1⟩

/-- State unemployment input with two states over months 0 and 1. -/
def exampleSu : List SObs :=
  [⟨0, 0, 3⟩, ⟨0, 1, 4⟩, ⟨1, 0, 5⟩, ⟨1, 1, 6⟩]

/-- Federal funds input over months 0 and 1. -/
def exampleFed : List Obs := [⟨0, 1⟩, ⟨1, 2⟩]

/-- National unemployment input over months 0 and 1. -/
def exampleNatl : List Obs := [⟨0, 7⟩, ⟨1, 8⟩]

/-- State unemployment covering only month 0. -/
def disjointSu : List SObs := [⟨0, 0, 3⟩]

/-- Federal funds covering only month 5. -/
def disjointFed : List Obs := [⟨5, 1⟩]

/-- National unemployment covering only month 9: the three required
series have pairwise-empty date overlap. -/
def disjointNatl : List Obs := [⟨9, 7⟩]

/-- An annual-cadence series: observations in month 0 of two consecutive
years (month indices 0 and 12, both calendar month 0). -/
def annualInflation : List Obs := [⟨0, 3⟩, ⟨12, 5⟩]

/-- A loaded data dictionary holding an annual-cadence series under the
key `inflation` — a key the harmonizer never examines. -/
def exampleHarmonizeData : List (String × List Obs) :=
  [("inflation", annualInflation)]

/-- Optional inflation table for the enhanced merge examples. -/
def exampleInflation : List Obs := [⟨0, 10⟩, ⟨1, 11⟩]

/-- Optional recession-indicator table with one row per date. -/
def exampleRecession : List Obs := [⟨0, 0⟩, ⟨1, 1⟩]

/-- Optional state-scoped employment table covering one (date, state). -/
def exampleEmployment : List SObs := [⟨0, 0, 100⟩]

/-- A process environment in which no variable is set. -/
def envEmpty : String → Option String := fun _ => none

/-
Lemmas and claim theorems.
-/

/-- Membership in the sorted panel is membership before sorting. -/
lemma mem_sortPanel {r : Row} {l : List Row} : r ∈ sortPanel l ↔ r ∈ l :=
  (List.perm_insertionSort _ l).mem_iff

/-- Membership in the sorted enhanced panel is membership before
sorting. -/
lemma mem_sortPanelE {r : ERow} {l : List ERow} :
    r ∈ sortPanelE l ↔ r ∈ l :=
  (List.perm_insertionSort _ l).mem_iff

/-- An entry of a filtered take agrees with the same entry of the full
filtered list: the former is an initial segment of the latter. -/
lemma filter_take_getElem? {α} (l : List α) (P : α → Bool) (i j : ℕ)
    (hj : j < ((l.take i).filter P).length) :
    (l.filter P)[j]? = ((l.take i).filter P)[j]? := by
  conv_lhs => rw [← List.take_append_drop i l]
  rw [List.filter_append, List.getElem?_append, if_pos hj]

/-- Entry `i` of a grouped shift column, as a function of the history of
same-state rows strictly before position `i`. -/
lemma groupedShiftAux_getElem? (k : ℕ) (f : Row → ℚ) :
    ∀ (rest pre : List Row) (i : ℕ) (r : Row), rest[i]? = some r →
      (groupedShiftAux k f pre rest)[i]? =
        some (lagCell k f
          ((pre ++ rest.take i).filter fun x => x.state = r.state)) := by
  intro rest
  induction rest with
  | nil => intro pre i r h; simp at h
  | cons r0 rest' ih =>
    intro pre i r h
    cases i with
    | zero =>
      rw [List.getElem?_cons_zero, Option.some_inj] at h
      subst h
      simp [groupedShiftAux]
    | succ n =>
      rw [List.getElem?_cons_succ] at h
      rw [groupedShiftAux, List.getElem?_cons_succ, ih (pre ++ [r0]) n r h,
        List.take_succ_cons]
      simp [List.append_assoc]

/-- Entry `i` of an ungrouped shift column: the cell reaches back into
the full list of rows before position `i`. -/
lemma ungroupedShiftAux_getElem? (k : ℕ) (f : Row → ℚ) :
    ∀ (rest pre : List Row) (i : ℕ), i < rest.length →
      (ungroupedShiftAux k f pre rest)[i]? =
        some (lagCell k f (pre ++ rest.take i)) := by
  intro rest
  induction rest with
  | nil => intro pre i h; simp at h
  | cons r0 rest' ih =>
    intro pre i h
    cases i with
    | zero => simp [ungroupedShiftAux]
    | succ n =>
      rw [ungroupedShiftAux, List.getElem?_cons_succ,
        ih (pre ++ [r0]) n (by simpa using h),
        List.take_succ_cons]
      simp [List.append_assoc]

/-- The grouped shift of the unemployment rate coincides entrywise with
the spec's within-state `Lag(k)` for every `k ≥ 1`. -/
lemma groupedShift_eq_specLag (k : ℕ) (hk : 1 ≤ k) (panel : List Row)
    (i : ℕ) (hi : i < panel.length) :
    (groupedShift k Row.unemployment_rate panel)[i]? =
      some (specLagWithinState k panel i) := by
  have hr : panel[i]? = some panel[i] := List.getElem?_eq_getElem hi
  rw [groupedShift,
    groupedShiftAux_getElem? k Row.unemployment_rate panel [] i panel[i] hr]
  rw [specLagWithinState, hr]
  simp only [List.nil_append, lagCell]
  by_cases hkt :
      k ≤ ((panel.take i).filter fun x => x.state = panel[i].state).length
  · rw [if_pos hkt, if_pos hkt,
      filter_take_getElem? panel _ i _
        (Nat.sub_lt (Nat.lt_of_lt_of_le hk hkt) hk)]
  · rw [if_neg hkt, if_neg hkt]

/-- Entrywise value of the year-over-year change column: the spec's
`lag(1) − lag(13)` within the row's own state, with null propagation. -/
lemma yoy_getElem? (panel : List Row) (i : ℕ) (hi : i < panel.length) :
    (unemployment_yoy_change panel)[i]? =
      some (osub (specLagWithinState 1 panel i)
        (specLagWithinState 13 panel i)) := by
  rw [unemployment_yoy_change, List.getElem?_zipWith,
    groupedShift_eq_specLag 1 (by norm_num) panel i hi,
    groupedShift_eq_specLag 13 (by norm_num) panel i hi]

/-- C7: for every state and every row at position t within the state's
rows, `unemployment_yoy_change` equals the unemployment rate at position
t−1 minus the rate at position t−13 within the state's own sequence —
exactly lag(1) − lag(13), null whenever either offset falls before the
start of the state's data. -/
theorem yoy_change_is_lag1_minus_lag13 (panel : List Row) (i : ℕ)
    (hi : i < panel.length) :
    (unemployment_yoy_change panel)[i]? =
      some (osub (specLagWithinState 1 panel i)
        (specLagWithinState 13 panel i)) :=
  yoy_getElem? panel i hi

/-- Witness for C7 at the 15-month single-state panel, row 13. -/
theorem yoy_change_is_lag1_minus_lag13_witness :
    13 < examplePanelLong.length ∧
    (unemployment_yoy_change examplePanelLong)[13]? =
      some (osub (specLagWithinState 1 examplePanelLong 13)
        (specLagWithinState 13 examplePanelLong 13)) :=
  ⟨by decide, yoy_change_is_lag1_minus_lag13 examplePanelLong 13 (by decide)⟩

/-- C1: `fed_rate_lagged_1mo` is an ungrouped panel-wide `shift(1)`, not
a lag grouped by state. On the (date, state)-sorted example panel the
column holds `[none, 1, 1, 2]`: row 1 (month 0, state 1) receives state
0's same-month value instead of null, and row 3 (month 1, state 1)
receives the current month's rate 2 instead of the prior month's 1 — it
differs from the grouped shift the claim (and the script's own data
dictionary entry "Previous month (%)") describes. The unemployment lag,
by contrast, is genuinely grouped. -/
theorem fed_rate_lag_is_ungrouped_at_example :
    fed_rate_lagged_1mo examplePanel = [none, some 1, some 1, some 2] ∧
    groupedShift 1 Row.federal_funds_rate examplePanel =
      [none, none, some 1, some 1] ∧
    fed_rate_lagged_1mo examplePanel ≠
      groupedShift 1 Row.federal_funds_rate examplePanel ∧
    unemployment_lagged_1mo examplePanel = [none, none, some 0, some 5] := by
  decide

/-- C2: `fed_rate_change` is the ungrouped row-to-row diff on the
(date, state)-sorted panel, so within a month it compares a state row
against the previous state's row of the same month and yields 0, not the
month-over-month change: on the example panel the code produces
`[none, 0, 1, 0]` while the claimed per-month difference is
`[none, none, 1, 1]`. -/
theorem fed_rate_change_is_row_diff_at_example :
    fed_rate_change examplePanel = [none, some 0, some 1, some 0] ∧
    specFedRateMonthChange examplePanel = [none, none, some 1, some 1] ∧
    fed_rate_change examplePanel ≠ specFedRateMonthChange examplePanel := by
  have h1 : fed_rate_change examplePanel =
      [none, some 0, some 1, some 0] := by
    norm_num [fed_rate_change, ungroupedShift, ungroupedShiftAux, lagCell,
      osub, examplePanel]
  have h2 : specFedRateMonthChange examplePanel =
      [none, none, some 1, some 1] := by
    norm_num [specFedRateMonthChange, examplePanel, List.find?]
  refine ⟨h1, h2, ?_⟩
  rw [h1, h2]
  decide

/-- C3 counterexample: on the example panel the volatility column is
null at row 2 — the second row of state 0, where the claim demands the
standard deviation of the two-observation window — because the
state-major-ordered values are assigned back by position onto the
date-major panel; and row 1 (state 1's first row, own window `[5]`,
sample deviation undefined) instead receives state 0's two-observation
variance 2. So the column is neither non-null everywhere nor aligned
with each row's own state. -/
theorem volatility_null_and_misaligned_at_example :
    (unemployment_volatility_12mo examplePanel)[2]? = some none ∧
    (examplePanel[2]?).map Row.key = some (1, 0) ∧
    (unemployment_volatility_12mo examplePanel)[1]? = some (some 2) ∧
    sampleVar [(5 : ℚ)] = none := by
  refine ⟨by decide, by decide, ?_, by decide⟩
  norm_num [unemployment_volatility_12mo, resetIndexDrop, groupedRollingVar,
    statesSorted, examplePanel, rollingVar12, sampleVar, List.insertionSort,
    List.orderedInsert, List.dedup, List.range, List.range.loop, List.enum,
    List.enumFrom]

/-- C10: with the credential environment variable unset, fetch_data.py
exits 1, but fetch_bls_data.py merely returns 1 from `main` after
printing the remediation message — its module guard discards the return
value, so the process exit code is 0. -/
theorem bls_missing_key_exits_zero :
    fetch_bls_process_exit envEmpty = 0 ∧
    (fetch_bls_main envEmpty).1 = some 1 ∧
    (fetch_bls_main envEmpty).2 ≠ [] ∧
    fetch_data_process_exit envEmpty none 0 = 1 := by
  refine ⟨rfl, rfl, ?_, rfl⟩
  decide

/-- C9 counterexample: a data dictionary holding an annual-cadence
series under the key `inflation` passes through the harmonizer
unchanged, although the claim requires any annual-cadence series to be
re-indexed to a monthly forward-filled grid (which would have 13 rows
here, not 2). -/
theorem harmonizer_ignores_annual_inflation :
    harmonize_frequencies exampleHarmonizeData = .ok exampleHarmonizeData ∧
    exampleHarmonizeData.lookup "inflation" = some annualInflation ∧
    monthNunique annualInflation = 1 ∧
    specReindexMonthlyFfill annualInflation ≠ annualInflation := by
  refine ⟨rfl, rfl, rfl, ?_⟩
  decide

/-- C9 amended: the Frequency Harmonizer examines only the series stored
under the key `real_income`; any data dictionary without that key — and
`load_raw_data` never loads it, as its key list shows — is returned
unchanged, whatever the cadences of its series. -/
theorem harmonizer_only_examines_real_income
    (data : List (String × List Obs))
    (h : data.lookup "real_income" = none) :
    harmonize_frequencies data = .ok data ∧
    "real_income" ∉ loadRawDataKeys := by
  refine ⟨?_, by decide⟩
  simp [harmonize_frequencies, h]

/-- Witness for the amended C9 at a one-entry data dictionary. -/
theorem harmonizer_only_examines_real_income_witness :
    ([("inflation", annualInflation)] :
      List (String × List Obs)).lookup "real_income" = none ∧
    harmonize_frequencies [("inflation", annualInflation)] =
      .ok [("inflation", annualInflation)] :=
  ⟨by decide,
    (harmonizer_only_examines_real_income
      [("inflation", annualInflation)] (by decide)).1⟩

/-- C6 amended: when the required series have no overlapping date range
(max-of-mins exceeds min-of-maxes), `create_state_panel` performs no
overlap check and returns the empty panel; `main` then writes both panel
files and exits 1 only because report generation fails on the empty
column, without any "no common date range" message. -/
theorem no_overlap_empty_panel_still_written (su : List SObs)
    (fed natl : List Obs) (cs ce : ℕ)
    (hcs : commonStart? su fed natl = some cs)
    (hce : commonEnd? su fed natl = some ce) (hlt : ce < cs) :
    create_state_panel su fed natl = [] ∧
    merge_main_run su fed natl =
      (["panel_processed.csv", "analysis_panel.csv"], 1) := by
  have hp : create_state_panel su fed natl = [] := by
    simp only [create_state_panel, hcs, hce, filterCommonRange]
    have hnil :
        (innerJoinStateNational (sortSObsByDate su)
          (innerJoinNational (sortObsByDate fed)
            (sortObsByDate natl))).filter
          (fun r => decide (cs ≤ r.date ∧ r.date ≤ ce)) = [] := by
      rw [List.filter_eq_nil_iff]
      intro r _ hr
      rw [decide_eq_true_eq] at hr
      exact absurd (le_trans hr.1 hr.2) (not_le.mpr hlt)
    rw [hnil]
    rfl
  refine ⟨hp, ?_⟩
  rw [merge_main_run, hp]
  rfl

/-- Witness for the amended C6 at the pairwise-disjoint inputs. -/
theorem no_overlap_empty_panel_still_written_witness :
    commonStart? disjointSu disjointFed disjointNatl = some 9 ∧
    commonEnd? disjointSu disjointFed disjointNatl = some 0 ∧
    create_state_panel disjointSu disjointFed disjointNatl = [] := by
  refine ⟨by decide, by decide, ?_⟩
  exact (no_overlap_empty_panel_still_written disjointSu disjointFed
    disjointNatl 9 0 (by decide) (by decide) (by decide)).1

/-- C6 counterexample: with zero date overlap the run still writes both
panel files (an empty panel) and the only failure is the report
generator's argmin on an empty column — there is no "no common date
range" error and the panel is written. -/
theorem no_overlap_counterexample :
    merge_main_run disjointSu disjointFed disjointNatl =
      (["panel_processed.csv", "analysis_panel.csv"], 1) ∧
    create_state_panel disjointSu disjointFed disjointNatl = [] ∧
    generate_data_quality_report [] =
      .error "attempt to get argmin of an empty sequence" := by
  refine ⟨rfl, ?_, rfl⟩
  decide

/-- Length of a rolling column equals the length of its input. -/
lemma rollingVar12_length (xs : List ℚ) :
    (rollingVar12 xs).length = xs.length := by
  simp [rollingVar12]

/-- The filtered enumeration of a panel carries exactly the filtered
panel's unemployment rates, in order. -/
lemma enumFrom_filter_vals (s : ℕ) : ∀ (l : List Row) (n : ℕ),
    (((List.enumFrom n l).filter fun p => p.2.state = s).map
        fun p => p.2.unemployment_rate) =
      (l.filter fun r => r.state = s).map Row.unemployment_rate := by
  intro l
  induction l with
  | nil => intro n; rfl
  | cons r t ih =>
    intro n
    by_cases hs : r.state = s
    · simp [List.enumFrom, List.filter_cons, hs, ih (n + 1)]
    · simp [List.enumFrom, List.filter_cons, hs, ih (n + 1)]

/-- The volatility column is the concatenation, in ascending state
order, of the per-state rolling sequences — the positional content of
the pandas MultiIndex series after `reset_index(drop=True)`. -/
lemma volatility_eq_stateMajor (panel : List Row) :
    unemployment_volatility_12mo panel = stateMajorVolatility panel := by
  rw [unemployment_volatility_12mo, resetIndexDrop, groupedRollingVar,
    stateMajorVolatility, List.map_flatMap]
  refine List.flatMap_congr ?_
  intro s _
  have hvals := enumFrom_filter_vals s panel 0
  rw [List.enum] at *
  rw [List.map_snd_zip]
  · rw [hvals]
  · rw [rollingVar12_length, List.length_map, List.length_map]

/-- The first entry of every rolling column is null: the one-observation
window has no sample standard deviation. -/
lemma rollingVar12_head? (xs : List ℚ) (h : xs ≠ []) :
    (rollingVar12 xs).head? = some none := by
  cases xs with
  | nil => exact absurd rfl h
  | cons x t =>
    show (rollingVar12 (x :: t)).head? = some none
    rw [rollingVar12]
    simp [List.range_succ_eq_map, sampleVar]

/-- C3 amended: the volatility column holds the per-state rolling
sequences concatenated in ascending state order and assigned back by
position — matching a row's own state's trailing window only when the
panel is ordered state-major — and every nonempty state's rolling
sequence starts with null (sample deviation of a one-observation
window), so the column is not non-null everywhere. -/
theorem volatility_is_state_major_positional (panel : List Row) :
    unemployment_volatility_12mo panel = stateMajorVolatility panel ∧
    ∀ xs : List ℚ, xs ≠ [] → (rollingVar12 xs).head? = some none :=
  ⟨volatility_eq_stateMajor panel, fun xs h => rollingVar12_head? xs h⟩

/-- Witness for the amended C3 at the example panel. -/
theorem volatility_is_state_major_positional_witness :
    unemployment_volatility_12mo examplePanel =
      stateMajorVolatility examplePanel ∧
    ([(5 : ℚ)] ≠ [] ∧ (rollingVar12 [(5 : ℚ)]).head? = some none) :=
  ⟨(volatility_is_state_major_positional examplePanel).1,
    by decide,
    (volatility_is_state_major_positional examplePanel).2 [(5 : ℚ)]
      (by decide)⟩

/-- A row surviving the common-range filter has its date inside the
bounds. -/
lemma of_mem_filterCommonRange {a b : ℕ} {r : Row} {l : List Row}
    (h : r ∈ filterCommonRange (some a) (some b) l) :
    a ≤ r.date ∧ r.date ≤ b := by
  rw [filterCommonRange] at h
  have := List.of_mem_filter h
  simpa using this

/-- A row surviving the enhanced common-range filter has its date inside
the bounds. -/
lemma of_mem_filterCommonRangeE {a b : ℕ} {r : ERow} {l : List ERow}
    (h : r ∈ filterCommonRangeE (some a) (some b) l) :
    a ≤ r.date ∧ r.date ≤ b := by
  rw [filterCommonRangeE] at h
  have := List.of_mem_filter h
  simpa using this

/-- C4: every row of an assembled panel — base or enhanced — has its
date inside `[common_start, common_end]`, the max-of-mins and
min-of-maxes of the three required series' date ranges. -/
theorem panel_dates_within_common_range (su : List SObs)
    (fed natl : List Obs) (cs ce : ℕ)
    (hcs : commonStart? su fed natl = some cs)
    (hce : commonEnd? su fed natl = some ce) :
    (∀ r ∈ create_state_panel su fed natl,
      cs ≤ r.date ∧ r.date ≤ ce) ∧
    (∀ (infl rec tre : Option (List Obs)) (emp lab priv : Option (List SObs)),
      ∀ r ∈ create_state_panel_enhanced su fed natl infl rec tre emp lab priv,
        cs ≤ r.date ∧ r.date ≤ ce) := by
  constructor
  · intro r hr
    simp only [create_state_panel, hcs, hce] at hr
    exact of_mem_filterCommonRange (mem_sortPanel.mp hr)
  · intro infl rec tre emp lab priv r hr
    simp only [create_state_panel_enhanced, hcs, hce] at hr
    exact of_mem_filterCommonRangeE (mem_sortPanelE.mp hr)

/-- Witness for C4 at the two-state, two-month inputs. -/
theorem panel_dates_within_common_range_witness :
    commonStart? exampleSu exampleFed exampleNatl = some 0 ∧
    commonEnd? exampleSu exampleFed exampleNatl = some 1 ∧
    ∀ r ∈ create_state_panel exampleSu exampleFed exampleNatl,
      0 ≤ r.date ∧ r.date ≤ 1 :=
  ⟨by decide, by decide,
    (panel_dates_within_common_range exampleSu exampleFed exampleNatl 0 1
      (by decide) (by decide)).1⟩

/-- A filter whose accepted elements all map to one key value keeps at
most one element of a list whose key images are distinct. -/
lemma filter_length_le_one {α κ : Type} [DecidableEq κ] (l : List α)
    (f : α → κ) (hl : (l.map f).Nodup) (p : α → Bool) (y : κ)
    (hp : ∀ a, p a = true → f a = y) : (l.filter p).length ≤ 1 := by
  induction l with
  | nil => simp
  | cons a t ih =>
    rw [List.map_cons, List.nodup_cons] at hl
    by_cases hpa : p a = true
    · have ht : t.filter p = [] := by
        rw [List.filter_eq_nil_iff]
        intro b hb hpb
        exact hl.1 (by
          rw [hp a hpa, ← hp b hpb]
          exact List.mem_map_of_mem f hb)
      simp [List.filter_cons, hpa, ht]
    · simpa [List.filter_cons, hpa] using ih hl.2

/-- A flat map whose blocks have at most one element, each carrying its
generator's key, has a key image that embeds into the generators' key
image. -/
lemma flatMap_map_sublist {α β γ : Type} (l : List α) (F : α → List β)
    (k : α → γ) (kb : β → γ) (hkey : ∀ a, ∀ b ∈ F a, kb b = k a)
    (hlen : ∀ a, (F a).length ≤ 1) :
    ((l.flatMap F).map kb).Sublist (l.map k) := by
  induction l with
  | nil => simp
  | cons a t ih =>
    rw [List.flatMap_cons, List.map_append, List.map_cons]
    cases hFa : F a with
    | nil => exact (List.nil_append _) ▸ List.Sublist.cons (k a) ih
    | cons b bs =>
      have hbs : bs = [] := by
        have h2 := hlen a
        rw [hFa, List.length_cons] at h2
        exact List.eq_nil_of_length_eq_zero (by omega)
      subst hbs
      have hb : kb b = k a := hkey a b (by rw [hFa]; exact List.mem_singleton_self b)
      simp only [List.map_cons, List.map_nil, List.singleton_append, hb]
      exact List.Sublist.cons₂ (k a) ih

/-- The common-range filter never adds rows. -/
lemma filterCommonRange_sublist (cs ce : Option ℕ) (l : List Row) :
    (filterCommonRange cs ce l).Sublist l := by
  cases cs <;> cases ce <;>
    simp [filterCommonRange, List.filter_sublist, List.nil_sublist]

/-- The enhanced common-range filter never adds rows. -/
lemma filterCommonRangeE_sublist (cs ce : Option ℕ) (l : List ERow) :
    (filterCommonRangeE cs ce l).Sublist l := by
  cases cs <;> cases ce <;>
    simp [filterCommonRangeE, List.filter_sublist, List.nil_sublist]

/-- Distinct input keys survive both inner joins: the (date, state) keys
of the joined rows embed into the state series' keys. -/
lemma assembled_rows_keys_nodup (su : List SObs) (fed natl : List Obs)
    (h1 : (fed.map Obs.date).Nodup) (h2 : (natl.map Obs.date).Nodup)
    (h3 : (su.map fun s => (s.date, s.state)).Nodup) :
    ((innerJoinStateNational (sortSObsByDate su)
      (innerJoinNational (sortObsByDate fed) (sortObsByDate natl))).map
        Row.key).Nodup := by
  have h1' : ((sortObsByDate fed).map Obs.date).Nodup :=
    (((List.perm_insertionSort _ fed).map Obs.date).symm).nodup h1
  have h2' : ((sortObsByDate natl).map Obs.date).Nodup :=
    (((List.perm_insertionSort _ natl).map Obs.date).symm).nodup h2
  have h3' : ((sortSObsByDate su).map fun s : SObs =>
      (s.date, s.state)).Nodup :=
    (((List.perm_insertionSort _ su).map fun s : SObs =>
      (s.date, s.state)).symm).nodup h3
  have hnd : ((innerJoinNational (sortObsByDate fed)
      (sortObsByDate natl)).map NRow.date).Nodup := by
    refine List.Nodup.sublist ?_ h1'
    refine flatMap_map_sublist _ _ Obs.date NRow.date ?_ ?_
    · intro a b hb
      obtain ⟨n, _, rfl⟩ := List.mem_map.mp hb
      rfl
    · intro a
      rw [List.length_map]
      exact filter_length_le_one _ Obs.date h2' _ a.date
        (fun n hn => by simpa using hn)
  refine List.Nodup.sublist ?_ h3'
  refine flatMap_map_sublist _ _ (fun s : SObs => (s.date, s.state))
    Row.key ?_ ?_
  · intro a b hb
    obtain ⟨n, _, rfl⟩ := List.mem_map.mp hb
    rfl
  · intro a
    rw [List.length_map]
    exact filter_length_le_one _ NRow.date hnd _ a.date
      (fun n hn => by simpa using hn)

/-- C5 part one: the base assembler's (date, state) keys are distinct. -/
lemma create_state_panel_keys_nodup (su : List SObs) (fed natl : List Obs)
    (h1 : (fed.map Obs.date).Nodup) (h2 : (natl.map Obs.date).Nodup)
    (h3 : (su.map fun s => (s.date, s.state)).Nodup) :
    ((create_state_panel su fed natl).map Row.key).Nodup := by
  simp only [create_state_panel, sortPanel]
  refine (((List.perm_insertionSort _ _).map Row.key).symm).nodup ?_
  refine List.Nodup.sublist
    ((filterCommonRange_sublist _ _ _).map Row.key) ?_
  exact assembled_rows_keys_nodup su fed natl h1 h2 h3

/-- A national left join whose right table matches each date at most
once — and whose setter leaves the key untouched — preserves the key
list exactly. -/
lemma leftJoinNational_map_key (set : ERow → Option ℚ → ERow)
    (hset : ∀ r v, (set r v).key = r.key) (t : List Obs)
    (ht : ∀ d, (t.filter fun o => o.date = d).length ≤ 1) :
    ∀ p : List ERow,
      (leftJoinNational set t p).map ERow.key = p.map ERow.key := by
  intro p
  induction p with
  | nil => rfl
  | cons r p' ih =>
    simp only [leftJoinNational] at ih ⊢
    rw [List.flatMap_cons, List.map_append, ih, List.map_cons]
    have hb : ((match t.filter fun o => o.date = r.date with
        | [] => [set r none]
        | ms => ms.map fun m => set r (some m.value)) :
          List ERow).map ERow.key = [r.key] := by
      cases hf : t.filter fun o => o.date = r.date with
      | nil => simp [hset]
      | cons m ms =>
        have hms : ms = [] := by
          have h2 := ht r.date
          rw [hf, List.length_cons] at h2
          exact List.eq_nil_of_length_eq_zero (by omega)
        subst hms
        simp [hset]
    rw [hb, List.singleton_append]

/-- A state-scoped left join whose right table matches each
(date, state) at most once preserves the key list exactly. -/
lemma leftJoinState_map_key (set : ERow → Option ℚ → ERow)
    (hset : ∀ r v, (set r v).key = r.key) (t : List SObs)
    (ht : ∀ d st,
      (t.filter fun o => o.date = d ∧ o.state = st).length ≤ 1) :
    ∀ p : List ERow,
      (leftJoinState set t p).map ERow.key = p.map ERow.key := by
  intro p
  induction p with
  | nil => rfl
  | cons r p' ih =>
    simp only [leftJoinState] at ih ⊢
    rw [List.flatMap_cons, List.map_append, ih, List.map_cons]
    have hb : ((match t.filter fun o =>
          o.date = r.date ∧ o.state = r.state with
        | [] => [set r none]
        | ms => ms.map fun m => set r (some m.value)) :
          List ERow).map ERow.key = [r.key] := by
      cases hf : t.filter fun o => o.date = r.date ∧ o.state = r.state with
      | nil => simp [hset]
      | cons m ms =>
        have hms : ms = [] := by
          have h2 := ht r.date r.state
          rw [hf, List.length_cons] at h2
          exact List.eq_nil_of_length_eq_zero (by omega)
        subst hms
        simp [hset]
    rw [hb, List.singleton_append]

/-- An optional national join with a unique-dates table (when present)
preserves the key list. -/
lemma optJoinNational_map_key (set : ERow → Option ℚ → ERow)
    (hset : ∀ r v, (set r v).key = r.key) (t? : Option (List Obs))
    (hts : ∀ t, t? = some t → (t.map Obs.date).Nodup) (p : List ERow) :
    (optJoinNational set t? p).map ERow.key = p.map ERow.key := by
  cases t? with
  | none => rfl
  | some t =>
    have hn : ((sortObsByDate t).map Obs.date).Nodup :=
      (((List.perm_insertionSort _ t).map Obs.date).symm).nodup
        (hts t rfl)
    exact leftJoinNational_map_key set hset _
      (fun d => filter_length_le_one _ Obs.date hn _ d
        (fun o ho => by simpa using ho)) p

/-- An optional state-scoped join with a unique-keys table (when
present) preserves the key list. -/
lemma optJoinState_map_key (set : ERow → Option ℚ → ERow)
    (hset : ∀ r v, (set r v).key = r.key) (t? : Option (List SObs))
    (hts : ∀ t, t? = some t →
      (t.map fun o : SObs => (o.date, o.state)).Nodup) (p : List ERow) :
    (optJoinState set t? p).map ERow.key = p.map ERow.key := by
  cases t? with
  | none => rfl
  | some t =>
    have hn : ((sortSObsByDateState t).map fun o : SObs =>
        (o.date, o.state)).Nodup :=
      (((List.perm_insertionSort _ t).map fun o : SObs =>
        (o.date, o.state)).symm).nodup (hts t rfl)
    refine leftJoinState_map_key set hset _ ?_ p
    intro d st
    refine filter_length_le_one _ (fun o : SObs => (o.date, o.state)) hn
      _ (d, st) ?_
    intro o ho
    rw [decide_eq_true_eq] at ho
    show (o.date, o.state) = (d, st)
    rw [ho.1, ho.2]

/-- The enhanced assembler's key list is distinct when the core inputs
have unique keys and every present optional table does too. -/
lemma create_state_panel_enhanced_keys_nodup (su : List SObs)
    (fed natl : List Obs) (infl rec tre : Option (List Obs))
    (emp lab priv : Option (List SObs))
    (h1 : (fed.map Obs.date).Nodup) (h2 : (natl.map Obs.date).Nodup)
    (h3 : (su.map fun s => (s.date, s.state)).Nodup)
    (hi : ∀ t, infl = some t → (t.map Obs.date).Nodup)
    (hr : ∀ t, rec = some t → (t.map Obs.date).Nodup)
    (htr : ∀ t, tre = some t → (t.map Obs.date).Nodup)
    (hem : ∀ t, emp = some t →
      (t.map fun o : SObs => (o.date, o.state)).Nodup)
    (hlb : ∀ t, lab = some t →
      (t.map fun o : SObs => (o.date, o.state)).Nodup)
    (hpv : ∀ t, priv = some t →
      (t.map fun o : SObs => (o.date, o.state)).Nodup) :
    ((create_state_panel_enhanced su fed natl infl rec tre emp lab
      priv).map ERow.key).Nodup := by
  simp only [create_state_panel_enhanced, sortPanelE]
  refine (((List.perm_insertionSort _ _).map ERow.key).symm).nodup ?_
  refine List.Nodup.sublist
    ((filterCommonRangeE_sublist _ _ _).map ERow.key) ?_
  rw [optJoinState_map_key (fun r v => { r with private_employment := v })
      (fun _ _ => rfl) priv hpv,
    optJoinState_map_key (fun r v => { r with labor_force_level := v })
      (fun _ _ => rfl) lab hlb,
    optJoinState_map_key (fun r v => { r with employment_level := v })
      (fun _ _ => rfl) emp hem,
    optJoinNational_map_key (fun r v => { r with treasury_10y_yield := v })
      (fun _ _ => rfl) tre htr,
    optJoinNational_map_key (fun r v => { r with recession_indicator := v })
      (fun _ _ => rfl) rec hr,
    optJoinNational_map_key (fun r v => { r with inflation_cpi := v })
      (fun _ _ => rfl) infl hi,
    List.map_map]
  have hcomp : (ERow.key ∘ baseERow) = Row.key := rfl
  rw [hcomp]
  exact assembled_rows_keys_nodup su fed natl h1 h2 h3

/-- Prepending an element to the grouped lists inserts it at the front
of its own state's block: one step of the partition permutation. -/
lemma flatMap_filter_cons_perm {α κ : Type} [DecidableEq κ] (f : α → κ)
    (x : α) (l : List α) :
    ∀ ss : List κ, ss.Nodup → f x ∈ ss →
      (ss.flatMap fun s => (x :: l).filter fun a => f a = s).Perm
        (x :: ss.flatMap fun s => l.filter fun a => f a = s) := by
  intro ss
  induction ss with
  | nil => intro _ hx; simp at hx
  | cons s ss' ih =>
    intro hnd hx
    rw [List.nodup_cons] at hnd
    rw [List.flatMap_cons, List.flatMap_cons]
    by_cases hxs : f x = s
    · have hblock : (x :: l).filter (fun a => decide (f a = s)) =
          x :: l.filter fun a => f a = s := by
        rw [List.filter_cons]
        simp [hxs]
      have hrest : (ss'.flatMap fun s' =>
            (x :: l).filter fun a => f a = s') =
          ss'.flatMap fun s' => l.filter fun a => f a = s' := by
        refine List.flatMap_congr ?_
        intro s' hs'
        rw [List.filter_cons]
        have hne : ¬ f x = s' := by
          intro hh
          apply hnd.1
          rw [← hxs, hh]
          exact hs'
        simp [hne]
      rw [hblock, hrest, List.cons_append]
    · have hblock : (x :: l).filter (fun a => decide (f a = s)) =
          l.filter fun a => f a = s := by
        rw [List.filter_cons]
        simp [hxs]
      have hx' : f x ∈ ss' := by
        cases List.mem_cons.mp hx with
        | inl h => exact absurd h hxs
        | inr h => exact h
      rw [hblock]
      exact (List.Perm.append_left _ (ih hnd.2 hx')).trans List.perm_middle

/-- Partition permutation: filtering a list by each of a distinct,
covering family of keys and concatenating the groups permutes the
list. -/
lemma flatMap_filter_groups_perm {α κ : Type} [DecidableEq κ] (f : α → κ) :
    ∀ (l : List α) (ss : List κ), ss.Nodup → (∀ x ∈ l, f x ∈ ss) →
      (ss.flatMap fun s => l.filter fun x => f x = s).Perm l := by
  intro l
  induction l with
  | nil => intro ss _ _; simp
  | cons x t ih =>
    intro ss hnd hcov
    exact (flatMap_filter_cons_perm f x t ss hnd
      (hcov x (List.mem_cons_self x t))).trans
      ((ih ss hnd (fun y hy => hcov y (List.mem_cons_of_mem x hy))).cons x)

/-- The sorted group keys are distinct. -/
lemma statesSorted_nodup (panel : List Row) : (statesSorted panel).Nodup :=
  ((List.perm_insertionSort _ _).symm).nodup (List.nodup_dedup _)

/-- Every panel row's state appears among the sorted group keys. -/
lemma mem_statesSorted (panel : List Row) {r : Row} (hr : r ∈ panel) :
    r.state ∈ statesSorted panel :=
  (List.perm_insertionSort _ _).mem_iff.mpr
    (List.mem_dedup.mpr (List.mem_map_of_mem Row.state hr))

/-- The per-state groups, concatenated in key order, permute the
panel. -/
lemma panel_groups_perm (panel : List Row) :
    ((statesSorted panel).flatMap fun s =>
      panel.filter fun r => r.state = s).Perm panel :=
  flatMap_filter_groups_perm Row.state panel _ (statesSorted_nodup panel)
    (fun _ hr => mem_statesSorted panel hr)

/-- The state-major volatility list covers every panel row exactly
once. -/
lemma stateMajorVolatility_length (panel : List Row) :
    (stateMajorVolatility panel).length = panel.length := by
  rw [stateMajorVolatility, List.length_flatMap]
  have h2 := (panel_groups_perm panel).length_eq
  rw [List.length_flatMap] at h2
  rw [← h2]
  congr 1
  refine List.map_congr_left ?_
  intro s _
  simp [rollingVar12_length]

/-- The volatility column has one entry per panel row. -/
lemma volatility_length (panel : List Row) :
    (unemployment_volatility_12mo panel).length = panel.length := by
  rw [volatility_eq_stateMajor, stateMajorVolatility_length]

/-- A grouped shift column has one entry per row. -/
lemma groupedShiftAux_length (k : ℕ) (f : Row → ℚ) :
    ∀ (rest pre : List Row),
      (groupedShiftAux k f pre rest).length = rest.length := by
  intro rest
  induction rest with
  | nil => intro pre; rfl
  | cons r t ih =>
    intro pre
    rw [groupedShiftAux, List.length_cons, List.length_cons, ih]

/-- An ungrouped shift column has one entry per row. -/
lemma ungroupedShiftAux_length (k : ℕ) (f : Row → ℚ) :
    ∀ (rest pre : List Row),
      (ungroupedShiftAux k f pre rest).length = rest.length := by
  intro rest
  induction rest with
  | nil => intro pre; rfl
  | cons r t ih =>
    intro pre
    rw [ungroupedShiftAux, List.length_cons, List.length_cons, ih]

/-- The year-over-year column has one entry per row. -/
lemma yoy_length (panel : List Row) :
    (unemployment_yoy_change panel).length = panel.length := by
  rw [unemployment_yoy_change, List.length_zipWith, groupedShift,
    groupedShift, groupedShiftAux_length, groupedShiftAux_length]
  exact min_self _

/-- The fed-rate-change column has one entry per row. -/
lemma fed_change_length (panel : List Row) :
    (fed_rate_change panel).length = panel.length := by
  rw [fed_rate_change, List.length_zipWith, List.length_map,
    ungroupedShift, ungroupedShiftAux_length]
  exact min_self _

/-- Zipping the panel with columns at least as long keeps exactly the
panel's rows. -/
lemma zipDerived_map_row : ∀ (rs : List Row)
    (a b c d e : List (Option ℚ)),
    rs.length ≤ a.length → rs.length ≤ b.length → rs.length ≤ c.length →
    rs.length ≤ d.length → rs.length ≤ e.length →
    (zipDerived rs a b c d e).map DRow.row = rs := by
  intro rs
  induction rs with
  | nil =>
    intro a b c d e _ _ _ _ _
    cases a <;> cases b <;> cases c <;> cases d <;> cases e <;> rfl
  | cons r rs' ih =>
    intro a b c d e ha hb hc hd he
    cases a with
    | nil => simp at ha
    | cons a0 a' =>
      cases b with
      | nil => simp at hb
      | cons b0 b' =>
        cases c with
        | nil => simp at hc
        | cons c0 c' =>
          cases d with
          | nil => simp at hd
          | cons d0 d' =>
            cases e with
            | nil => simp at he
            | cons e0 e' =>
              simp only [zipDerived, List.map_cons]
              rw [ih a' b' c' d' e' (by simpa using ha)
                (by simpa using hb) (by simpa using hc)
                (by simpa using hd) (by simpa using he)]

/-- The Derived-Variable Engine keeps the panel's rows unchanged: it
only widens them. -/
lemma calculate_derived_map_row (panel : List Row) :
    (calculate_derived_variables panel).map DRow.row = panel := by
  refine zipDerived_map_row panel _ _ _ _ _ ?_ ?_ ?_ ?_ ?_
  · rw [yoy_length]
  · rw [fed_change_length]
  · rw [unemployment_lagged_1mo, groupedShift, groupedShiftAux_length]
  · rw [fed_rate_lagged_1mo, ungroupedShift, ungroupedShiftAux_length]
  · rw [volatility_length]

/-- C5: under the precondition that each national input series has at
most one row per date and each state-scoped input series at most one row
per (date, state), the pair (date, state) is a candidate key of the
assembled panel — base and enhanced, through every supplementary left
join — and the Derived-Variable Engine keeps the keyed rows unchanged. -/
theorem date_state_candidate_key (su : List SObs) (fed natl : List Obs)
    (infl rec tre : Option (List Obs)) (emp lab priv : Option (List SObs))
    (h1 : (fed.map Obs.date).Nodup) (h2 : (natl.map Obs.date).Nodup)
    (h3 : (su.map fun s => (s.date, s.state)).Nodup)
    (hi : ∀ t, infl = some t → (t.map Obs.date).Nodup)
    (hr : ∀ t, rec = some t → (t.map Obs.date).Nodup)
    (htr : ∀ t, tre = some t → (t.map Obs.date).Nodup)
    (hem : ∀ t, emp = some t →
      (t.map fun o : SObs => (o.date, o.state)).Nodup)
    (hlb : ∀ t, lab = some t →
      (t.map fun o : SObs => (o.date, o.state)).Nodup)
    (hpv : ∀ t, priv = some t →
      (t.map fun o : SObs => (o.date, o.state)).Nodup) :
    ((create_state_panel su fed natl).map Row.key).Nodup ∧
    ((create_state_panel_enhanced su fed natl infl rec tre emp lab
      priv).map ERow.key).Nodup ∧
    (calculate_derived_variables (create_state_panel su fed natl)).map
      (fun d => d.row.key) =
      (create_state_panel su fed natl).map Row.key := by
  refine ⟨create_state_panel_keys_nodup su fed natl h1 h2 h3,
    create_state_panel_enhanced_keys_nodup su fed natl infl rec tre emp
      lab priv h1 h2 h3 hi hr htr hem hlb hpv, ?_⟩
  conv_rhs =>
    rw [← calculate_derived_map_row (create_state_panel su fed natl)]
  rw [List.map_map]
  rfl

/-- Witness for C5 at the two-state inputs with three optional tables
present. -/
theorem date_state_candidate_key_witness :
    ((create_state_panel exampleSu exampleFed exampleNatl).map
      Row.key).Nodup ∧
    ((create_state_panel_enhanced exampleSu exampleFed exampleNatl
      (some exampleInflation) (some exampleRecession) none
      (some exampleEmployment) none none).map ERow.key).Nodup :=
  ⟨(date_state_candidate_key exampleSu exampleFed exampleNatl
      (some exampleInflation) (some exampleRecession) none
      (some exampleEmployment) none none (by decide) (by decide)
      (by decide) (fun t ht => by cases ht; decide)
      (fun t ht => by cases ht; decide) (fun t ht => nomatch ht)
      (fun t ht => by cases ht; decide) (fun t ht => nomatch ht)
      (fun t ht => nomatch ht)).1,
    (date_state_candidate_key exampleSu exampleFed exampleNatl
      (some exampleInflation) (some exampleRecession) none
      (some exampleEmployment) none none (by decide) (by decide)
      (by decide) (fun t ht => by cases ht; decide)
      (fun t ht => by cases ht; decide) (fun t ht => nomatch ht)
      (fun t ht => by cases ht; decide) (fun t ht => nomatch ht)
      (fun t ht => nomatch ht)).2.1⟩

/-- A national left join's key list depends only on the input key list,
not on the other columns. -/
lemma leftJoinNational_map_key_congr (set : ERow → Option ℚ → ERow)
    (hset : ∀ r v, (set r v).key = r.key) (t : List Obs) :
    ∀ p q : List ERow, p.map ERow.key = q.map ERow.key →
      (leftJoinNational set t p).map ERow.key =
        (leftJoinNational set t q).map ERow.key := by
  intro p
  induction p with
  | nil =>
    intro q h
    have hq : q = [] := List.map_eq_nil_iff.mp h.symm
    subst hq
    rfl
  | cons r p' ih =>
    intro q h
    cases q with
    | nil => simp at h
    | cons s q' =>
      simp only [List.map_cons, List.cons.injEq] at h
      obtain ⟨hk, h'⟩ := h
      have hd : r.date = s.date := congrArg Prod.fst hk
      simp only [leftJoinNational, List.flatMap_cons, List.map_append]
      have ihh := ih q' h'
      simp only [leftJoinNational] at ihh
      rw [ihh, ← hd]
      congr 1
      cases hf : t.filter fun o => o.date = r.date with
      | nil => simp [hset, hk]
      | cons m ms =>
        simp only [hf, List.map_map]
        refine List.map_congr_left ?_
        intro a _
        show (set r (some a.value)).key = (set s (some a.value)).key
        rw [hset, hset, hk]

/-- A state-scoped left join's key list depends only on the input key
list. -/
lemma leftJoinState_map_key_congr (set : ERow → Option ℚ → ERow)
    (hset : ∀ r v, (set r v).key = r.key) (t : List SObs) :
    ∀ p q : List ERow, p.map ERow.key = q.map ERow.key →
      (leftJoinState set t p).map ERow.key =
        (leftJoinState set t q).map ERow.key := by
  intro p
  induction p with
  | nil =>
    intro q h
    have hq : q = [] := List.map_eq_nil_iff.mp h.symm
    subst hq
    rfl
  | cons r p' ih =>
    intro q h
    cases q with
    | nil => simp at h
    | cons s q' =>
      simp only [List.map_cons, List.cons.injEq] at h
      obtain ⟨hk, h'⟩ := h
      have hd : r.date = s.date := congrArg Prod.fst hk
      have hst : r.state = s.state := congrArg Prod.snd hk
      simp only [leftJoinState, List.flatMap_cons, List.map_append]
      have ihh := ih q' h'
      simp only [leftJoinState] at ihh
      rw [ihh, ← hd, ← hst]
      congr 1
      cases hf : t.filter fun o => o.date = r.date ∧ o.state = r.state with
      | nil => simp [hset, hk]
      | cons m ms =>
        simp only [hf, List.map_map]
        refine List.map_congr_left ?_
        intro a _
        show (set r (some a.value)).key = (set s (some a.value)).key
        rw [hset, hset, hk]

/-- Optional-national-join version of the key-congruence lemma. -/
lemma optJoinNational_map_key_congr (set : ERow → Option ℚ → ERow)
    (hset : ∀ r v, (set r v).key = r.key) (t? : Option (List Obs))
    (p q : List ERow) (h : p.map ERow.key = q.map ERow.key) :
    (optJoinNational set t? p).map ERow.key =
      (optJoinNational set t? q).map ERow.key := by
  cases t? with
  | none => exact h
  | some t => exact leftJoinNational_map_key_congr set hset _ p q h

/-- Optional-state-join version of the key-congruence lemma. -/
lemma optJoinState_map_key_congr (set : ERow → Option ℚ → ERow)
    (hset : ∀ r v, (set r v).key = r.key) (t? : Option (List SObs))
    (p q : List ERow) (h : p.map ERow.key = q.map ERow.key) :
    (optJoinState set t? p).map ERow.key =
      (optJoinState set t? q).map ERow.key := by
  cases t? with
  | none => exact h
  | some t => exact leftJoinState_map_key_congr set hset _ p q h

/-- The date-range filter's key list depends only on the input key
list. -/
lemma filter_date_map_key_congr (a b : ℕ) :
    ∀ p q : List ERow, p.map ERow.key = q.map ERow.key →
      ((p.filter fun r => a ≤ r.date ∧ r.date ≤ b).map ERow.key) =
        ((q.filter fun r => a ≤ r.date ∧ r.date ≤ b).map ERow.key) := by
  intro p
  induction p with
  | nil =>
    intro q h
    have hq : q = [] := List.map_eq_nil_iff.mp h.symm
    subst hq
    rfl
  | cons r p' ih =>
    intro q h
    cases q with
    | nil => simp at h
    | cons s q' =>
      simp only [List.map_cons, List.cons.injEq] at h
      obtain ⟨hk, h'⟩ := h
      have hd : r.date = s.date := congrArg Prod.fst hk
      rw [List.filter_cons, List.filter_cons, ← hd]
      cases hc : decide (a ≤ r.date ∧ r.date ≤ b) with
      | false =>
        rw [if_neg (by simp : ¬ (false = true)),
          if_neg (by simp : ¬ (false = true))]
        exact ih q' h'
      | true =>
        rw [if_pos rfl, if_pos rfl, List.map_cons, List.map_cons, hk,
          ih q' h']

/-- The common-range filter's key list depends only on the input key
list. -/
lemma filterCommonRangeE_map_key_congr (cs ce : Option ℕ)
    (p q : List ERow) (h : p.map ERow.key = q.map ERow.key) :
    (filterCommonRangeE cs ce p).map ERow.key =
      (filterCommonRangeE cs ce q).map ERow.key := by
  cases cs with
  | none => rfl
  | some a =>
    cases ce with
    | none => rfl
    | some b => exact filter_date_map_key_congr a b p q h

/-- A left join never drops rows: every left row produces at least one
output row. -/
lemma leftJoinNational_length_ge (set : ERow → Option ℚ → ERow)
    (t : List Obs) : ∀ p : List ERow,
      p.length ≤ (leftJoinNational set t p).length := by
  intro p
  induction p with
  | nil => simp
  | cons r p' ih =>
    simp only [leftJoinNational, List.flatMap_cons, List.length_append,
      List.length_cons] at ih ⊢
    have hblock : 1 ≤ ((match t.filter fun o => o.date = r.date with
        | [] => [set r none]
        | ms => ms.map fun m => set r (some m.value)) :
          List ERow).length := by
      cases hf : t.filter fun o => o.date = r.date with
      | nil => simp
      | cons m ms => simp
    omega

/-- Sorting the enhanced panel preserves its length. -/
lemma sortPanelE_length (l : List ERow) : (sortPanelE l).length = l.length :=
  (List.perm_insertionSort _ l).length_eq

/-- C8: an absent optional series leaves the enhanced panel's row count
unchanged relative to the same series present with unique dates, and a
left join never drops rows. -/
theorem optional_absent_preserves_rows (su : List SObs)
    (fed natl : List Obs) (infl tre : Option (List Obs))
    (emp lab priv : Option (List SObs)) (rec : List Obs)
    (hrec : (rec.map Obs.date).Nodup) :
    (create_state_panel_enhanced su fed natl infl none tre emp lab
      priv).length =
      (create_state_panel_enhanced su fed natl infl (some rec) tre emp
        lab priv).length ∧
    ∀ (set : ERow → Option ℚ → ERow) (t : List Obs) (p : List ERow),
      p.length ≤ (leftJoinNational set t p).length := by
  refine ⟨?_, fun set t p => leftJoinNational_length_ge set t p⟩
  simp only [create_state_panel_enhanced]
  rw [sortPanelE_length, sortPanelE_length,
    ← List.length_map _ ERow.key, ← List.length_map _ ERow.key]
  refine congrArg List.length ?_
  refine filterCommonRangeE_map_key_congr _ _ _ _ ?_
  refine optJoinState_map_key_congr
    (fun r v => { r with private_employment := v }) (fun _ _ => rfl)
    priv _ _ ?_
  refine optJoinState_map_key_congr
    (fun r v => { r with labor_force_level := v }) (fun _ _ => rfl)
    lab _ _ ?_
  refine optJoinState_map_key_congr
    (fun r v => { r with employment_level := v }) (fun _ _ => rfl)
    emp _ _ ?_
  refine optJoinNational_map_key_congr
    (fun r v => { r with treasury_10y_yield := v }) (fun _ _ => rfl)
    tre _ _ ?_
  exact (optJoinNational_map_key
    (fun r v => { r with recession_indicator := v }) (fun _ _ => rfl)
    (some rec) (fun t ht => by cases ht; exact hrec) _).symm

/-- Witness for C8 at the example inputs with the recession table
present versus absent. -/
theorem optional_absent_preserves_rows_witness :
    (exampleRecession.map Obs.date).Nodup ∧
    (create_state_panel_enhanced exampleSu exampleFed exampleNatl
      (some exampleInflation) none none (some exampleEmployment) none
      none).length =
      (create_state_panel_enhanced exampleSu exampleFed exampleNatl
        (some exampleInflation) (some exampleRecession) none
        (some exampleEmployment) none none).length :=
  ⟨by decide,
    (optional_absent_preserves_rows exampleSu exampleFed exampleNatl
      (some exampleInflation) none (some exampleEmployment) none none
      exampleRecession (by decide)).1⟩
